import Mathlib

set_option maxRecDepth 10000

/-!
# Off the Charts — verification of the response parsers, the daily selector
and the game state machine

This file shallowly embeds the core logic of the repository:

* the appeal response parsers of `src/app/api/appeal/route.ts`
  (single- and dual-adjective variants of `parseAppealResponse`);
* the scoring response parsers (`parseScoringResponse`, single- and
  dual-adjective variants) of the score routes;
* the request-validation tests of the two appeal `POST` handlers;
* `pickDailyAdjectives` / `pickRandomAdjectives` and the preset tables of
  `src/data/adjectives.ts`;
* the pure state transitions of `useDailyGameState.ts` (both the flat
  five-guess variant and the 3×3 multi-category variant's appeal step).

Strings are modelled as `List Char` (`Str`), JavaScript numbers appearing in
parsed JSON as `ℚ` (every value the claims touch is produced by exact
double-precision arithmetic on integers far below 2^53, where doubles and ℚ
agree), and JavaScript `Math.round` / `Math.floor` by `jround` / `Int.floor`.
A value of `JsonAttempt α` abstracts the outcome of `JSON.parse` on the raw
backend reply: `.ok fields` holds the relevant fields of the parsed value
(a field is `none` when it is absent or not of the tested type, mirroring
the code's `typeof`-guards), and `.fail` is a thrown parse error.  The
regular-expression fallbacks are embedded concretely, character by
character, following ECMAScript regex semantics (leftmost match, greedy
whitespace before a forced literal, lazy capture bodies).
-/

/-- JavaScript strings, as lists of characters. -/
abbrev Str := List Char

/-- Characters of a Lean string literal, used to embed the source's string
constants. -/
def strChars (s : String) : Str := s.toList

/-- The characters matched by the ECMAScript regex class `\s` (ASCII part
plus no-break space); enough for the byte strings the routes scan. -/
def jsWs (c : Char) : Bool :=
  c.toNat = 32 || c.toNat = 9 || c.toNat = 10 || c.toNat = 13 ||
  c.toNat = 11 || c.toNat = 12 || c.toNat = 160

/-- `Math.round`: round half toward positive infinity. -/
def jround (q : ℚ) : ℤ := Int.floor (q + 1 / 2)

/-- Match a pattern literal case-insensitively (the routes' regexes all carry
the `i` flag); returns the rest of the input after the literal. -/
def matchLitCI : Str → Str → Option Str
  | [], rest => some rest
  | _ :: _, [] => none
  | p :: ps, r :: rs => if p.toLower = r.toLower then matchLitCI ps rs else none

/-- Match `KEY\s*:\s*` at the head of the input (the key literal includes its
surrounding quotes); returns what follows the second whitespace run. -/
def afterKeyColon (key : Str) (s : Str) : Option Str :=
  (matchLitCI key s).bind fun r1 =>
    match r1.dropWhile jsWs with
    | ':' :: r3 => some (r3.dropWhile jsWs)
    | _ => none

/-- Numeric value of an ASCII digit. -/
def digitVal (c : Char) : Nat := c.toNat - 48

/-- `KEY\s*:\s*(\d)` at the head of the input: exactly one captured digit. -/
def oneDigitAt (key : Str) (s : Str) : Option Nat :=
  (afterKeyColon key s).bind fun r =>
    match r with
    | c :: _ => if c.isDigit then some (digitVal c) else none
    | [] => none

/-- `KEY\s*:\s*(\d+)` at the head of the input: a maximal digit run. -/
def digitsAt (key : Str) (s : Str) : Option Nat :=
  (afterKeyColon key s).bind fun r =>
    let ds := r.takeWhile Char.isDigit
    if ds.isEmpty then none
    else some (ds.foldl (fun n c => 10 * n + digitVal c) 0)

/-- Leftmost match: try the matcher at every start position, as
`String.prototype.match` does with a non-global regex. -/
def findFirst (f : Str → Option α) : Str → Option α
  | [] => f []
  | c :: cs =>
    match f (c :: cs) with
    | some a => some a
    | none => findFirst f cs

/-- The anchored tail `\s*\x7d?$` of the single-variant reasoning regexes:
after the closing quote only whitespace and at most one closing brace may
remain. -/
def anchorTailOk (tail : Str) : Bool :=
  match tail.dropWhile jsWs with
  | [] => true
  | ['}'] => true
  | _ => false

/-- The lazy capture body `([\s\S]*?)"` (with, when `anchored`, the extra
requirement `\s*\x7d?$` after the closing quote): the capture grows from the
left until the first closing quote whose tail satisfies the anchor. -/
def lazyBody (anchored : Bool) : Str → Str → Option Str
  | _, [] => none
  | acc, c :: tail =>
    if c = '"' then
      if anchored then
        if anchorTailOk tail then some acc.reverse
        else lazyBody anchored (c :: acc) tail
      else some acc.reverse
    else lazyBody anchored (c :: acc) tail

/-- `KEY\s*:\s*"([\s\S]*?)"` (optionally with the `\s*\x7d?$` anchor) at the
head of the input. -/
def strCaptureAt (anchored : Bool) (key : Str) (s : Str) : Option Str :=
  (afterKeyColon key s).bind fun r =>
    match r with
    | c :: rest => if c = '"' then lazyBody anchored [] rest else none
    | [] => none

/-- First match of `"KEY"\s*:\s*(\d)` (flag `i`) anywhere in the reply. -/
def findKeyDigit (key : String) (s : Str) : Option Nat :=
  findFirst (oneDigitAt (strChars key)) s

/-- First match of `"KEY"\s*:\s*(\d+)` (flag `i`) anywhere in the reply. -/
def findKeyNum (key : String) (s : Str) : Option Nat :=
  findFirst (digitsAt (strChars key)) s

/-- First match of `"KEY"\s*:\s*"([\s\S]*?)"` (flag `i`, optionally with the
trailing anchor `\s*\x7d?$`) anywhere in the reply. -/
def findKeyStr (anchored : Bool) (key : String) (s : Str) : Option Str :=
  findFirst (strCaptureAt anchored (strChars key)) s

/-- Outcome of `JSON.parse` on the raw reply: `ok` with the fields the route
inspects, or a thrown syntax error. -/
inductive JsonAttempt (α : Type) where
  | ok (fields : α)
  | fail
deriving DecidableEq

/-- The fields of a parsed single-appeal reply that the route reads.  A field
is `some` exactly when it is present with the type the code tests for
(`typeof parsed.newScore === "number"`, `parsed.accepted === true`); the
reasoning field carries its `toString()` rendering. -/
structure AppealJson where
  newScore : Option ℚ
  accepted : Option Bool
  reasoning : Option Str
deriving DecidableEq

/-- Return value of the single-adjective `parseAppealResponse`. -/
structure AppealReply where
  newScore : ℚ
  reasoning : Str
  accepted : Bool
deriving DecidableEq

/-- The clamp both appeal paths apply:
`Math.min(10, Math.max(originalScore, Math.round(x)))`. -/
def clampAppeal (originalScore x : ℚ) : ℚ :=
  min 10 (max originalScore ((jround x : ℤ) : ℚ))

/-- The regex fallback of the single-adjective `parseAppealResponse`
(route.ts lines 119–128). -/
def appealFallback (raw : Str) (originalScore : ℚ) : AppealReply :=
  let numeric : ℚ :=
    match findKeyDigit "\"newScore\"" raw with
    | some d => (d : ℚ)
    | none => originalScore
  let clamped : ℚ := clampAppeal originalScore numeric
  { newScore := clamped,
    reasoning :=
      match findKeyStr true "\"reasoning\"" raw with
      | some cap => cap
      | none => raw,
    accepted := decide (originalScore < clamped) }

/-- The JSON branch of the single-adjective `parseAppealResponse`: taken when
`typeof parsed.newScore === "number"`, otherwise execution falls through to
the regex fallback. -/
def appealFromJson (parsed : AppealJson) (raw : Str) (originalScore : ℚ) :
    AppealReply :=
  match parsed.newScore with
  | some ns =>
    let base : ℚ := max originalScore ns
    let clamped : ℚ := clampAppeal originalScore base
    { newScore := clamped,
      reasoning := parsed.reasoning.getD [],
      accepted := decide (originalScore < clamped) || decide (parsed.accepted = some true) }
  | none => appealFallback raw originalScore

/-- `parseAppealResponse` of the single-adjective appeal route. -/
def parseAppealResponse (j : JsonAttempt AppealJson) (raw : Str)
    (originalScore : ℚ) : AppealReply :=
  match j with
  | .ok parsed => appealFromJson parsed raw originalScore
  | .fail => appealFallback raw originalScore

/-- Fields of a parsed dual-appeal reply that the route reads. -/
structure AppealJson2 where
  newScore1 : Option ℚ
  newScore2 : Option ℚ
  accepted : Option Bool
  reasoning1 : Option Str
  reasoning2 : Option Str
deriving DecidableEq

/-- Return value of the dual-adjective `parseAppealResponse`. -/
structure AppealReply2 where
  newScore1 : ℚ
  newScore2 : ℚ
  reasoning1 : Str
  reasoning2 : Str
  accepted : Bool
deriving DecidableEq

/-- The regex fallback of the dual-adjective `parseAppealResponse`
(route.ts lines 290–305). -/
def appealFallback2 (raw : Str) (originalScore1 originalScore2 : ℚ) :
    AppealReply2 :=
  let numeric1 : ℚ :=
    match findKeyDigit "\"newScore1\"" raw with
    | some d => (d : ℚ)
    | none => originalScore1
  let numeric2 : ℚ :=
    match findKeyDigit "\"newScore2\"" raw with
    | some d => (d : ℚ)
    | none => originalScore2
  let clamped1 : ℚ := clampAppeal originalScore1 numeric1
  let clamped2 : ℚ := clampAppeal originalScore2 numeric2
  { newScore1 := clamped1,
    newScore2 := clamped2,
    reasoning1 := (findKeyStr false "\"reasoning1\"" raw).getD [],
    reasoning2 := (findKeyStr false "\"reasoning2\"" raw).getD [],
    accepted := decide (originalScore1 < clamped1) || decide (originalScore2 < clamped2) }

/-- The JSON branch of the dual-adjective `parseAppealResponse`: taken when
both `newScore1` and `newScore2` are numbers. -/
def appealFromJson2 (parsed : AppealJson2) (raw : Str)
    (originalScore1 originalScore2 : ℚ) : AppealReply2 :=
  match parsed.newScore1, parsed.newScore2 with
  | some ns1, some ns2 =>
    let base1 : ℚ := max originalScore1 ns1
    let base2 : ℚ := max originalScore2 ns2
    let clamped1 : ℚ := clampAppeal originalScore1 base1
    let clamped2 : ℚ := clampAppeal originalScore2 base2
    { newScore1 := clamped1,
      newScore2 := clamped2,
      reasoning1 := parsed.reasoning1.getD [],
      reasoning2 := parsed.reasoning2.getD [],
      accepted := decide (originalScore1 < clamped1) || decide (originalScore2 < clamped2) ||
        decide (parsed.accepted = some true) }
  | _, _ => appealFallback2 raw originalScore1 originalScore2

/-- `parseAppealResponse` of the dual-adjective appeal route. -/
def parseAppealResponse2 (j : JsonAttempt AppealJson2) (raw : Str)
    (originalScore1 originalScore2 : ℚ) : AppealReply2 :=
  match j with
  | .ok parsed => appealFromJson2 parsed raw originalScore1 originalScore2
  | .fail => appealFallback2 raw originalScore1 originalScore2

/-- Fields of a parsed single-adjective scoring reply that the route reads. -/
structure ScoringJson where
  score : Option ℚ
  reasoning : Option Str
  favoriteIndex : Option ℚ
deriving DecidableEq

/-- Return value of the single-adjective `parseScoringResponse`.  Every code
path computes the score as `Math.min`/`Math.max`/`Math.round` of integers, so
it is typed `ℤ`. -/
structure ScoringReply where
  score : ℤ
  reasoning : Str
  favoriteIndex : Option ℤ
deriving DecidableEq

/-- The regex fallback of the single-adjective `parseScoringResponse`.  The
`t = 0` test embeds the JavaScript `|| 5` applied to
`Math.max(1, Math.round(scoreNum))` (a number is falsy exactly when it is
`0` or `NaN`, and the operand here is an integer at least 1). -/
def scoringFallback (raw : Str) : ScoringReply :=
  let scoreNum : ℚ :=
    match findKeyNum "\"score\"" raw with
    | some n => (n : ℚ)
    | none => 5
  let t : ℤ := max 1 (jround scoreNum)
  let clamped : ℤ := min 10 (if t = 0 then 5 else t)
  { score := clamped,
    reasoning :=
      match findKeyStr true "\"reasoning\"" raw with
      | some cap => cap
      | none => raw,
    favoriteIndex := none }

/-- The JSON branch of the single-adjective `parseScoringResponse`. -/
def scoringFromJson (parsed : ScoringJson) (raw : Str) : ScoringReply :=
  match parsed.score with
  | some sc =>
    { score := min 10 (max 1 (jround sc)),
      reasoning := parsed.reasoning.getD [],
      favoriteIndex := parsed.favoriteIndex.map fun f => max 0 (min 2 (Int.floor f)) }
  | none => scoringFallback raw

/-- `parseScoringResponse` of the single-adjective score route. -/
def parseScoringResponse (j : JsonAttempt ScoringJson) (raw : Str) :
    ScoringReply :=
  match j with
  | .ok parsed => scoringFromJson parsed raw
  | .fail => scoringFallback raw

/-- Fields of a parsed dual-adjective scoring reply that the route reads. -/
structure ScoringJson2 where
  score1 : Option ℚ
  score2 : Option ℚ
  reasoning1 : Option Str
  reasoning2 : Option Str
deriving DecidableEq

/-- Return value of the dual-adjective `parseScoringResponse`. -/
structure ScoringReply2 where
  score1 : ℤ
  score2 : ℤ
  reasoning1 : Str
  reasoning2 : Str
deriving DecidableEq

/-- The regex fallback of the dual-adjective `parseScoringResponse`. -/
def scoringFallback2 (raw : Str) : ScoringReply2 :=
  let score1Num : ℚ :=
    match findKeyNum "\"score1\"" raw with
    | some n => (n : ℚ)
    | none => 5
  let score2Num : ℚ :=
    match findKeyNum "\"score2\"" raw with
    | some n => (n : ℚ)
    | none => 5
  let t1 : ℤ := max 1 (jround score1Num)
  let t2 : ℤ := max 1 (jround score2Num)
  { score1 := min 10 (if t1 = 0 then 5 else t1),
    score2 := min 10 (if t2 = 0 then 5 else t2),
    reasoning1 := (findKeyStr false "\"reasoning1\"" raw).getD [],
    reasoning2 := (findKeyStr false "\"reasoning2\"" raw).getD [] }

/-- The JSON branch of the dual-adjective `parseScoringResponse`: taken when
both `score1` and `score2` are numbers. -/
def scoringFromJson2 (parsed : ScoringJson2) (raw : Str) : ScoringReply2 :=
  match parsed.score1, parsed.score2 with
  | some s1, some s2 =>
    { score1 := min 10 (max 1 (jround s1)),
      score2 := min 10 (max 1 (jround s2)),
      reasoning1 := parsed.reasoning1.getD [],
      reasoning2 := parsed.reasoning2.getD [] }
  | _, _ => scoringFallback2 raw

/-- `parseScoringResponse` of the dual-adjective score route. -/
def parseScoringResponse2 (j : JsonAttempt ScoringJson2) (raw : Str) :
    ScoringReply2 :=
  match j with
  | .ok parsed => scoringFromJson2 parsed raw
  | .fail => scoringFallback2 raw

/-- JavaScript truthiness of an optional string field (`undefined` and the
empty string are falsy). -/
def truthyStr (s : Option Str) : Bool :=
  match s with
  | some l => !l.isEmpty
  | none => false

/-- JavaScript truthiness of an optional number field (`undefined` and `0`
are falsy; the JSON bodies the routes read cannot carry `NaN`). -/
def truthyNum (q : Option ℚ) : Bool :=
  match q with
  | some x => decide (x ≠ 0)
  | none => false

/-- The single-adjective appeal route's required-field test
(`!adjective || !noun || !originalScore || !appealText`): `true` means the
route replies 400. -/
def singleAppealRejected (adjective noun : Option Str) (originalScore : Option ℚ)
    (appealText : Option Str) : Bool :=
  !truthyStr adjective || !truthyStr noun || !truthyNum originalScore ||
    !truthyStr appealText

/-- The dual-adjective appeal route's required-field test
(`!adjective1 || !adjective2 || !noun || typeof originalScore1 !== "number" ||
typeof originalScore2 !== "number" || !appealText`). -/
def dualAppealRejected (adjective1 adjective2 noun : Option Str)
    (originalScore1 originalScore2 : Option ℚ) (appealText : Option Str) : Bool :=
  !truthyStr adjective1 || !truthyStr adjective2 || !truthyStr noun ||
    !originalScore1.isSome || !originalScore2.isSome || !truthyStr appealText

/-! ## Daily adjective selection (`src/data/adjectives.ts`) -/

/-- `BASE_ADJECTIVES`, the in-source adjective pool, verbatim. -/
def BASE_ADJECTIVES : List Str :=
  ["agile", "alien", "ancient", "animated", "apathetic", "aromatic", "awkward",
   "barren", "basic", "bitter", "bold", "bouncy", "breezy", "bright",
   "brilliant", "brittle", "bubbly", "chaotic", "charming", "cheerful",
   "clever", "cloudy", "clumsy", "colorful", "confused", "cozy", "curious",
   "dangerous", "delicate", "dramatic", "elusive", "energetic", "ethereal",
   "fearless", "fiery", "flexible", "flimsy", "fluffy", "foggy", "fragile",
   "frantic", "frozen", "gentle", "ghostly", "gigantic", "gloomy", "glorious",
   "graceful", "greedy", "gritty", "groovy", "grumpy", "guilty", "harsh",
   "haunting", "hectic", "helpless", "heroic", "hidden", "hollow", "hopeful",
   "hungry", "icy", "immense", "impatient", "infinite", "intense",
   "invisible", "jagged", "jaunty", "jittery", "joyful", "lazy", "legendary",
   "lonely", "loud", "lush", "magical", "massive", "melodic", "messy",
   "mighty", "moody", "mysterious", "nervous", "noisy", "nostalgic", "odd",
   "orderly", "ornate", "overwhelming", "peaceful", "playful", "pointless",
   "polished", "powerful", "prickly", "proud", "puzzling", "restless",
   "rigid", "rough", "rowdy", "rusty", "scattered", "shallow", "sharp",
   "shiny", "silky", "silly", "sleepy", "slippery", "sluggish", "smooth",
   "soft", "spacious", "speedy", "spiky", "spooky", "spotless", "squishy",
   "stale", "steep", "sticky", "sturdy", "subtle", "suspicious", "swift",
   "tangled", "tasty", "tense", "thick", "thin", "thrilling", "tidy",
   "timid", "tiny", "transparent", "tricky", "twisted", "unsteady", "vague",
   "vast", "velvety", "vibrant", "villainous", "warm", "watery",
   "weightless", "wild", "windy", "witty", "youthful", "cringe", "wholesome",
   "Chaotic Good", "True Neutral", "Chaotic Evil", "edgy", "cyberpunk",
   "sci-fi", "dystopian", "underdog", "rebellious", "nerd", "jock",
   "futuristic", "prehistoric", "hardcore", "spicy", "iconic", "underrated",
   "overrated", "doomed", "experimental", "impractical", "memes", "zany",
   "zippy"].map strChars

/-- `PRESET_PAIRS`: the preset daily puzzles for the first 14 days.  A
TypeScript `[string, string]` tuple is a two-element array at runtime, so
each entry is a two-element list. -/
def PRESET_PAIRS : List (List Str) :=
  [["sticky", "nostalgic"], ["gigantic", "hopeful"], ["slippery", "clever"],
   ["frozen", "dramatic"], ["aromatic", "mysterious"], ["jagged", "cheerful"],
   ["weightless", "heroic"], ["rusty", "nostalgic"], ["brittle", "hopeful"],
   ["spacious", "lonely"], ["smooth", "guilty"], ["sharp", "peaceful"],
   ["fluffy", "rebellious"], ["transparent", "dramatic"]].map (List.map strChars)

/-- The polynomial string hash of `pickRandomAdjectives`:
`hash = (hash * 31 + seed.charCodeAt(i)) >>> 0` over the seed string.  All
intermediate products stay below 2^53, so the double arithmetic is exact and
`>>> 0` is reduction mod 2^32. -/
def hashString (s : Str) : ℕ :=
  s.foldl (fun h c => (h * 31 + c.toNat) % 4294967296) 0

/-- One step of the linear congruential generator:
`hash = (hash * 1664525 + 1013904223) >>> 0` (again exact below 2^53). -/
def lcgStep (h : ℕ) : ℕ :=
  (h * 1664525 + 1013904223) % 4294967296

/-- The draw-without-replacement loop of `pickRandomAdjectives`: advance the
LCG, index into the remaining pool with `hash % adjectives.length`, push the
element and `splice` it out.  The caller guarantees the pool stays nonempty
(it enters with `count < pool.length`); the `getD` default is irrelevant. -/
def drawLoop : ℕ → ℕ → List Str → List Str
  | 0, _, _ => []
  | n + 1, h, pool =>
    let h2 := lcgStep h
    let idx := h2 % pool.length
    pool.getD idx [] :: drawLoop n h2 (pool.eraseIdx idx)

/-- `pickRandomAdjectives(count, pool, dateKey?)`.  The impure
`Date.now().toString()` default seed is made explicit: `seedStr` is the
dateKey when one was passed, otherwise the current-time string. -/
def pickRandomAdjectives (count : ℕ) (pool : List Str) (seedStr : Str) :
    List Str :=
  if pool.length ≤ count then pool
  else drawLoop count (hashString seedStr) pool

/-- The shape test of the regex `^(\d{4}-\d{2}-\d{2})` on a candidate
ten-character window. -/
def dateShape : Str → Bool
  | [a, b, c, d, e, f, g, h, i, j] =>
    a.isDigit && b.isDigit && c.isDigit && d.isDigit && e = '-' &&
    f.isDigit && g.isDigit && h = '-' && i.isDigit && j.isDigit
  | _ => false

/-- `dateKey.match(/^(\d{4}-\d{2}-\d{2})/)`: the pattern is anchored and of
fixed length ten, so it matches exactly when the first ten characters have
the date shape, and then captures them. -/
def matchDateStart (s : Str) : Option Str :=
  let p := s.take 10
  if dateShape p then some p else none

/-- The year, month and day read off a shape-checked window. -/
def parseYMD : Str → Option (ℕ × ℕ × ℕ)
  | [a, b, c, d, _, f, g, _, i, j] =>
    some (1000 * digitVal a + 100 * digitVal b + 10 * digitVal c + digitVal d,
      10 * digitVal f + digitVal g, 10 * digitVal i + digitVal j)
  | _ => none

/-- Leap-year test of the proleptic Gregorian calendar used by ECMAScript
dates. -/
def isLeap (y : ℕ) : Bool :=
  (y % 4 = 0 && y % 100 ≠ 0) || y % 400 = 0

/-- Days in a month (ECMAScript `Date` validation of ISO date strings). -/
def daysInMonth (y m : ℕ) : ℕ :=
  if m = 2 then (if isLeap y then 29 else 28)
  else if m = 4 || m = 6 || m = 9 || m = 11 then 30
  else 31

/-- ECMAScript treats an ISO `YYYY-MM-DD` string as a valid date exactly when
the month is 1–12 and the day fits the month. -/
def validYMD (y m d : ℕ) : Bool :=
  1 ≤ m && m ≤ 12 && 1 ≤ d && d ≤ daysInMonth y m

/-- Day number since the Unix epoch of a proleptic-Gregorian civil date (the
standard `days_from_civil` computation; this is the value
`new Date("YYYY-MM-DD").getTime() / 86400000` for a valid ISO date string,
which ECMAScript reads at UTC midnight).  The year is a four-digit number,
hence nonnegative. -/
def daysFromCivil (y m d : ℕ) : ℤ :=
  let yi : ℤ := if m ≤ 2 then (y : ℤ) - 1 else (y : ℤ)
  let era : ℤ := Int.fdiv yi 400
  let yoe : ℤ := yi - era * 400
  let mp : ℤ := if 2 < m then (m : ℤ) - 3 else (m : ℤ) + 9
  let doy : ℤ := Int.fdiv (153 * mp + 2) 5 + (d : ℤ) - 1
  let doe : ℤ := yoe * 365 + Int.fdiv yoe 4 - Int.fdiv yoe 100 + doy
  era * 146097 + doe - 719468

/-- `new Date(str).getTime()` for a shape-matched `YYYY-MM-DD` window, in
days since the epoch: `none` models an `Invalid Date` (`NaN`). -/
def utcDayNumber (p : Str) : Option ℤ :=
  match parseYMD p with
  | some (y, m, d) => if validYMD y m d then some (daysFromCivil y m d) else none
  | none => none

/-- `PRESET_START_DATE = "2025-12-10"`. -/
def PRESET_START_DATE : Str := strChars "2025-12-10"

/-- `pickDailyAdjectives(dateKey, count, pool)`.  `nowStr` is the
`Date.now().toString()` seed `pickRandomAdjectives` falls back to when no
dateKey is passed (only reachable when the dateKey has no date-shaped
prefix).  `daysDiff` is
`Math.floor((currentDate.getTime() - startDate.getTime()) / 86400000)`:
both times are UTC midnights, so the quotient is the exact difference of day
numbers; an invalid date gives `NaN`, for which both window comparisons are
false. -/
def pickDailyAdjectives (dateKey : Str) (count : ℕ) (pool : List Str)
    (nowStr : Str) : List Str :=
  match matchDateStart dateKey with
  | none => pickRandomAdjectives count pool nowStr
  | some p =>
    match utcDayNumber p, utcDayNumber PRESET_START_DATE with
    | some cur, some start =>
      let daysDiff : ℤ := cur - start
      if 0 ≤ daysDiff ∧ daysDiff < (PRESET_PAIRS.length : ℤ) then
        match PRESET_PAIRS.get? daysDiff.toNat with
        | some preset =>
          if preset.length = count then preset
          else pickRandomAdjectives count pool dateKey
        | none => pickRandomAdjectives count pool dateKey
      else pickRandomAdjectives count pool dateKey
    | _, _ => pickRandomAdjectives count pool dateKey

/-- The 14 consecutive calendar-day strings starting at the preset epoch. -/
def PRESET_DATE_KEYS : List Str :=
  ["2025-12-10", "2025-12-11", "2025-12-12", "2025-12-13", "2025-12-14",
   "2025-12-15", "2025-12-16", "2025-12-17", "2025-12-18", "2025-12-19",
   "2025-12-20", "2025-12-21", "2025-12-22", "2025-12-23"].map strChars

/-! ## Game state machine (`src/hooks/useDailyGameState.ts`)

The hook's `setState` updaters are pure functions of the previous state; they
are embedded as state transitions.  `Array.prototype.map((g, ri) => ...)` is
embedded as `mapWithIndex`.  Optional fields of `GuessResult` are `Option`s;
scores are the integers the scoring endpoints produce. -/

/-- `data.map((x, i) => f(i, x))`. -/
def mapWithIndex (f : ℕ → α → β) : List α → List β
  | [] => []
  | a :: as => f 0 a :: mapWithIndex (fun i => f (i + 1)) as

/-- JavaScript `String.prototype.trim` (whitespace from both ends). -/
def jsTrim (s : Str) : Str :=
  ((s.dropWhile jsWs).reverse.dropWhile jsWs).reverse

inductive GameMode where
  | daily
  | debugRandom
deriving DecidableEq

/-- `GuessResult` of the flat five-guess variant. -/
structure GuessResult where
  noun : Str
  scores : Option (ℤ × ℤ) := none
  reasonings : Option (Str × Str) := none
  appealed : Option Bool := none
  appealDelta : Option (ℤ × ℤ) := none
  isPass : Option Bool := none
deriving DecidableEq

/-- `GameState` of the flat five-guess variant. -/
structure GameState where
  mode : GameMode
  dateKey : Str
  adjectives : Str × Str
  guesses : List GuessResult
  currentTurnIndex : ℤ
  appealsRemaining : ℤ
deriving DecidableEq

/-- `emptyGuesses()`: five empty slots. -/
def emptyGuesses : List GuessResult :=
  List.replicate 5 { noun := [] }

/-- `createNewDailyState()`.  The impure `todayKey()` value is the explicit
`dateKey` argument and `nowStr` seeds the selector's no-date fallback; the
`selected.length !== 2` throw is `none`. -/
def createNewDailyState (dateKey nowStr : Str) : Option GameState :=
  match pickDailyAdjectives dateKey 2 BASE_ADJECTIVES nowStr with
  | [a, b] =>
    some { mode := .daily, dateKey := dateKey, adjectives := (a, b),
           guesses := emptyGuesses, currentTurnIndex := 0, appealsRemaining := 1 }
  | _ => none

/-- `submitGuessLocally(roundIndex, noun)`. -/
def submitGuessLocally (s : GameState) (roundIndex : ℕ) (noun : Str) :
    GameState :=
  { s with
    guesses := mapWithIndex (fun ri g =>
      if ri = roundIndex then { g with noun := jsTrim noun, isPass := some false }
      else g) s.guesses }

/-- The per-slot update of `submitPassLocally`: the chosen slot is passed
(`noun: g.noun || "PASS"`, zero scores) and every later slot that is still
unanswered (`!g.noun && !g.isPass`) is auto-passed. -/
def passSlot (roundIndex ri : ℕ) (g : GuessResult) : GuessResult :=
  if ri = roundIndex then
    { g with noun := if g.noun.isEmpty then strChars "PASS" else g.noun,
             scores := some (0, 0), isPass := some true }
  else if roundIndex < ri ∧ g.noun.isEmpty ∧ g.isPass ≠ some true then
    { g with noun := strChars "PASS", scores := some (0, 0), isPass := some true }
  else g

/-- `submitPassLocally(roundIndex)`. -/
def submitPassLocally (s : GameState) (roundIndex : ℕ) : GameState :=
  { s with guesses := mapWithIndex (passSlot roundIndex) s.guesses }

/-- The `while` loop of `advanceTurn`: skip consecutive passed slots below
the turn cap of 5 (an out-of-range or negative index reads `undefined`,
which is not a pass, and stops the loop). -/
def skipPasses (guesses : List GuessResult) (i : ℤ) : ℤ :=
  if _h : i < 5 then
    match (if 0 ≤ i then guesses.get? i.toNat else none) with
    | some g => if g.isPass = some true then skipPasses guesses (i + 1) else i
    | none => i
  else i
termination_by (5 - i).toNat
decreasing_by omega

/-- `advanceTurn()`. -/
def advanceTurn (s : GameState) : GameState :=
  { s with currentTurnIndex := min (skipPasses s.guesses (s.currentTurnIndex + 1)) 5 }

/-- `applyScore(roundIndex, scores, reasonings)`: record the scores and, on a
perfect 10 + 10, auto-mark every later unanswered slot. -/
def applyScore (s : GameState) (roundIndex : ℕ) (scores : ℤ × ℤ)
    (reasonings : Str × Str) : GameState :=
  let guesses1 := mapWithIndex (fun ri g =>
    if ri = roundIndex then { g with scores := some scores, reasonings := some reasonings }
    else g) s.guesses
  let guesses2 :=
    if scores.1 = 10 ∧ scores.2 = 10 then
      mapWithIndex (fun i g =>
        if roundIndex < i ∧ g.noun.isEmpty ∧ g.isPass ≠ some true then
          { g with noun := strChars "Perfect Score Achieved",
                   scores := some (10, 10), isPass := some true }
        else g) guesses1
    else guesses1
  { s with guesses := guesses2 }

/-- `applyAppealResult(roundIndex, newScores, newReasonings,
appealTokenConsumed)`.  The token flag is accepted and ignored, exactly as in
the source; the single appeal token is always consumed. -/
def applyAppealResult (s : GameState) (roundIndex : ℕ) (newScores : ℤ × ℤ)
    (newReasonings : Str × Str) (appealTokenConsumed : Bool) : GameState :=
  let previousScores : ℤ × ℤ :=
    (((s.guesses.get? roundIndex).bind fun g => g.scores).getD (0, 0))
  let delta : ℤ × ℤ :=
    (max 0 (newScores.1 - previousScores.1), max 0 (newScores.2 - previousScores.2))
  let _ := appealTokenConsumed
  { s with
    guesses := mapWithIndex (fun ri g =>
      if ri = roundIndex then
        { g with scores := some newScores, reasonings := some newReasonings,
                 appealed := some true, appealDelta := some delta }
      else g) s.guesses,
    appealsRemaining := max 0 (s.appealsRemaining - 1) }

/-- `GuessResult` of the 3×3 multi-category variant. -/
structure MGuessResult where
  noun : Str
  score : Option ℤ := none
  reasoning : Option Str := none
  appealed : Option Bool := none
  appealDelta : Option ℤ := none
  isPass : Option Bool := none
deriving DecidableEq

/-- `GameState` of the 3×3 multi-category variant. -/
structure MGameState where
  mode : GameMode
  dateKey : Str
  adjectives : List Str
  guesses : List (List MGuessResult)
  currentTurnIndex : ℤ
  appealsRemaining : ℤ
  favoriteIndices : Option (List (Option ℤ))
deriving DecidableEq

/-- `favoriteIndices[adjectiveIndex] = v` on a copy of the list. -/
def setFavorite (l : List (Option ℤ)) (adjectiveIndex : ℕ) (v : Option ℤ) :
    List (Option ℤ) :=
  mapWithIndex (fun j x => if j = adjectiveIndex then v else x) l

/-- `applyAppealResult` of the multi-category variant
(`adjectiveIndex, roundIndex, newScore, newReasoning, appealTokenConsumed,
favoriteIndexForCategory`).  `favoriteIndexForCategory` is `some` exactly
when the caller passed a number (`typeof === "number"`), in which case it is
floored and clamped into 0–2; otherwise the favorite list is merely
copied. -/
def mApplyAppealResult (s : MGameState) (adjectiveIndex roundIndex : ℕ)
    (newScore : ℤ) (newReasoning : Str) (appealTokenConsumed : Bool)
    (favoriteIndexForCategory : Option ℚ) : MGameState :=
  let previousScore : ℤ :=
    ((((s.guesses.get? adjectiveIndex).bind fun row => row.get? roundIndex).bind
      fun g => g.score).getD 0)
  let delta : ℤ := max 0 (newScore - previousScore)
  let _ := appealTokenConsumed
  let fav0 := s.favoriteIndices.getD [none, none, none]
  { s with
    guesses := mapWithIndex (fun ai row =>
      mapWithIndex (fun ri g =>
        if ai = adjectiveIndex ∧ ri = roundIndex then
          { g with score := some newScore, reasoning := some newReasoning,
                   appealed := some true, appealDelta := some delta }
        else g) row) s.guesses,
    appealsRemaining := max 0 (s.appealsRemaining - 1),
    favoriteIndices := some (match favoriteIndexForCategory with
      | some f => setFavorite fav0 adjectiveIndex (some (max 0 (min 2 (Int.floor f))))
      | none => fav0) }

/-! ## Helper views of the parsed reply -/

/-- The numeric `newScore` field the single-appeal JSON branch tests for
(`none` when `JSON.parse` threw or the field is not a number). -/
def jsonNewScore : JsonAttempt AppealJson → Option ℚ
  | .ok p => p.newScore
  | .fail => none

/-- The pair of numeric score fields the dual-appeal JSON branch tests for. -/
def jsonNewScores2 : JsonAttempt AppealJson2 → Option (ℚ × ℚ)
  | .ok p =>
    match p.newScore1, p.newScore2 with
    | some a, some b => some (a, b)
    | _, _ => none
  | .fail => none

/-- The reply parsed as JSON and carries an `accepted: true` field. -/
def hasAcceptedTrue : JsonAttempt AppealJson → Bool
  | .ok p => p.accepted = some true
  | .fail => false

/-- Dual-variant version of `hasAcceptedTrue`. -/
def hasAcceptedTrue2 : JsonAttempt AppealJson2 → Bool
  | .ok p => p.accepted = some true
  | .fail => false

/-! ## Arithmetic facts about the clamps -/

theorem jround_intCast (k : ℤ) : jround (k : ℚ) = k := by
  unfold jround
  rw [Int.floor_int_add]
  norm_num [Int.floor_eq_zero_iff]

theorem jround_mono {x y : ℚ} (h : x ≤ y) : jround x ≤ jround y :=
  Int.floor_le_floor (by linarith)

theorem le_clampAppeal (o x : ℚ) (h : o ≤ 10) : o ≤ clampAppeal o x :=
  le_min h (le_max_left _ _)

theorem clampAppeal_intCast (k : ℤ) (x : ℚ) :
    clampAppeal (k : ℚ) x = ((min 10 (max k (jround x)) : ℤ) : ℚ) := by
  unfold clampAppeal
  push_cast
  rfl

theorem clampAppeal_json_eq (k : ℤ) (x : ℚ) :
    clampAppeal (k : ℚ) (max (k : ℚ) x) = clampAppeal (k : ℚ) x := by
  rcases le_total (k : ℚ) x with h | h
  · rw [max_eq_right h]
  · rw [max_eq_left h]
    unfold clampAppeal
    rw [jround_intCast]
    have h2 : jround x ≤ k := by
      have h3 := jround_mono h
      rwa [jround_intCast] at h3
    rw [max_self, max_eq_left (by exact_mod_cast h2)]

theorem clampAppeal_self (k : ℤ) (hk : k ≤ 10) : clampAppeal (k : ℚ) (k : ℚ) = k := by
  unfold clampAppeal
  rw [jround_intCast, max_self, min_eq_right (by exact_mod_cast hk)]

theorem clampAppeal_int_bounds (k : ℤ) (hk0 : 0 ≤ k) (hk : k ≤ 10) (x : ℚ) :
    ∃ m : ℤ, clampAppeal (k : ℚ) x = (m : ℚ) ∧ 0 ≤ m ∧ m ≤ 10 ∧ (1 ≤ k → 1 ≤ m) :=
  ⟨min 10 (max k (jround x)), clampAppeal_intCast k x, by omega, by omega, by omega⟩

/-- C1: for every appeal call (original scores being the game's integer
scores, at most 10), each returned new score is at least the corresponding
original score, for every possible backend reply; when the reply parses as
JSON with a numeric score the result is `max(original, round(modelScore))`
capped at 10; and when no score is extractable — `JSON.parse` threw or gave
no numeric score field, and the fallback regex finds no digit — the original
score is returned unchanged.  Both endpoint variants. -/
theorem appeal_monotone (k1 k2 : ℤ) (hk1 : k1 ≤ 10) (hk2 : k2 ≤ 10) :
    (∀ (j : JsonAttempt AppealJson) (raw : Str),
      (k1 : ℚ) ≤ (parseAppealResponse j raw (k1 : ℚ)).newScore) ∧
    (∀ (p : AppealJson) (raw : Str) (ns : ℚ), p.newScore = some ns →
      (parseAppealResponse (.ok p) raw (k1 : ℚ)).newScore =
        min 10 (max (k1 : ℚ) ((jround ns : ℤ) : ℚ))) ∧
    (∀ (j : JsonAttempt AppealJson) (raw : Str),
      jsonNewScore j = none → findKeyDigit "\"newScore\"" raw = none →
      (parseAppealResponse j raw (k1 : ℚ)).newScore = (k1 : ℚ)) ∧
    (∀ (j : JsonAttempt AppealJson2) (raw : Str),
      (k1 : ℚ) ≤ (parseAppealResponse2 j raw (k1 : ℚ) (k2 : ℚ)).newScore1 ∧
      (k2 : ℚ) ≤ (parseAppealResponse2 j raw (k1 : ℚ) (k2 : ℚ)).newScore2) ∧
    (∀ (p : AppealJson2) (raw : Str) (ns1 ns2 : ℚ),
      p.newScore1 = some ns1 → p.newScore2 = some ns2 →
      (parseAppealResponse2 (.ok p) raw (k1 : ℚ) (k2 : ℚ)).newScore1 =
        min 10 (max (k1 : ℚ) ((jround ns1 : ℤ) : ℚ)) ∧
      (parseAppealResponse2 (.ok p) raw (k1 : ℚ) (k2 : ℚ)).newScore2 =
        min 10 (max (k2 : ℚ) ((jround ns2 : ℤ) : ℚ))) ∧
    (∀ (j : JsonAttempt AppealJson2) (raw : Str),
      jsonNewScores2 j = none →
      findKeyDigit "\"newScore1\"" raw = none →
      findKeyDigit "\"newScore2\"" raw = none →
      (parseAppealResponse2 j raw (k1 : ℚ) (k2 : ℚ)).newScore1 = (k1 : ℚ) ∧
      (parseAppealResponse2 j raw (k1 : ℚ) (k2 : ℚ)).newScore2 = (k2 : ℚ)) := by
  have h1 : (k1 : ℚ) ≤ 10 := by exact_mod_cast hk1
  have h2 : (k2 : ℚ) ≤ 10 := by exact_mod_cast hk2
  refine ⟨?_, ?_, ?_, ?_, ?_, ?_⟩
  · intro j raw
    cases j with
    | ok p =>
      cases hp : p.newScore with
      | some ns =>
        simp only [parseAppealResponse, appealFromJson, hp]
        exact le_clampAppeal _ _ h1
      | none =>
        simp only [parseAppealResponse, appealFromJson, hp]
        exact le_clampAppeal _ _ h1
    | fail =>
      exact le_clampAppeal _ _ h1
  · intro p raw ns hp
    simp only [parseAppealResponse, appealFromJson, hp]
    rw [show max (k1 : ℚ) ns = max (k1 : ℚ) ns from rfl]
    exact clampAppeal_json_eq k1 ns
  · intro j raw hj hd
    cases j with
    | ok p =>
      have hp : p.newScore = none := hj
      simp only [parseAppealResponse, appealFromJson, hp, appealFallback, hd]
      exact clampAppeal_self k1 hk1
    | fail =>
      simp only [parseAppealResponse, appealFallback, hd]
      exact clampAppeal_self k1 hk1
  · intro j raw
    cases j with
    | ok p =>
      cases hp1 : p.newScore1 with
      | some ns1 =>
        cases hp2 : p.newScore2 with
        | some ns2 =>
          simp only [parseAppealResponse2, appealFromJson2, hp1, hp2]
          exact ⟨le_clampAppeal _ _ h1, le_clampAppeal _ _ h2⟩
        | none =>
          simp only [parseAppealResponse2, appealFromJson2, hp1, hp2]
          exact ⟨le_clampAppeal _ _ h1, le_clampAppeal _ _ h2⟩
      | none =>
        simp only [parseAppealResponse2, appealFromJson2, hp1]
        exact ⟨le_clampAppeal _ _ h1, le_clampAppeal _ _ h2⟩
    | fail =>
      exact ⟨le_clampAppeal _ _ h1, le_clampAppeal _ _ h2⟩
  · intro p raw ns1 ns2 hp1 hp2
    simp only [parseAppealResponse2, appealFromJson2, hp1, hp2]
    exact ⟨clampAppeal_json_eq k1 ns1, clampAppeal_json_eq k2 ns2⟩
  · intro j raw hj hd1 hd2
    cases j with
    | ok p =>
      cases hp1 : p.newScore1 with
      | some ns1 =>
        cases hp2 : p.newScore2 with
        | some ns2 =>
          exfalso
          simp [jsonNewScores2, hp1, hp2] at hj
        | none =>
          simp only [parseAppealResponse2, appealFromJson2, hp1, hp2,
            appealFallback2, hd1, hd2]
          exact ⟨clampAppeal_self k1 hk1, clampAppeal_self k2 hk2⟩
      | none =>
        simp only [parseAppealResponse2, appealFromJson2, hp1, appealFallback2, hd1, hd2]
        exact ⟨clampAppeal_self k1 hk1, clampAppeal_self k2 hk2⟩
    | fail =>
      simp only [parseAppealResponse2, appealFallback2, hd1, hd2]
      exact ⟨clampAppeal_self k1 hk1, clampAppeal_self k2 hk2⟩

/-- Witness for C1: the spec's appeal scenario — originals 6 and 4, backend
JSON `newScore1: 5, newScore2: 9` — returns 6 and 9. -/
theorem appeal_monotone_witness :
    (parseAppealResponse2 (.ok ⟨some 5, some 9, none, none, none⟩) []
      (6 : ℚ) (4 : ℚ)).newScore1 = 6 ∧
    (parseAppealResponse2 (.ok ⟨some 5, some 9, none, none, none⟩) []
      (6 : ℚ) (4 : ℚ)).newScore2 = 9 := by
  have h := (appeal_monotone 6 4 (by norm_num) (by norm_num)).2.2.2.2.1
      ⟨some 5, some 9, none, none, none⟩ [] 5 9 rfl rfl
  push_cast at h
  rw [h.1, h.2, show (5 : ℚ) = ((5 : ℤ) : ℚ) by norm_num,
    show (9 : ℚ) = ((9 : ℤ) : ℚ) by norm_num, jround_intCast, jround_intCast]
  norm_num

/-- C2: every score the scoring endpoints return is an integer between 1 and
10, for every possible backend reply; every score the appeal endpoints
return for integer original scores between 0 and 10 is an integer between 0
and 10, at least 1 whenever the original was (so 0 only echoes a passed
slot's original 0).  Model scores out of range, non-integer or missing are
rounded and clamped before being returned. -/
theorem scores_in_range (k1 k2 : ℤ) (h01 : 0 ≤ k1) (h11 : k1 ≤ 10)
    (h02 : 0 ≤ k2) (h12 : k2 ≤ 10) :
    (∀ (j : JsonAttempt ScoringJson) (raw : Str),
      1 ≤ (parseScoringResponse j raw).score ∧ (parseScoringResponse j raw).score ≤ 10) ∧
    (∀ (j : JsonAttempt ScoringJson2) (raw : Str),
      (1 ≤ (parseScoringResponse2 j raw).score1 ∧ (parseScoringResponse2 j raw).score1 ≤ 10) ∧
      (1 ≤ (parseScoringResponse2 j raw).score2 ∧ (parseScoringResponse2 j raw).score2 ≤ 10)) ∧
    (∀ (j : JsonAttempt AppealJson) (raw : Str),
      ∃ m : ℤ, (parseAppealResponse j raw (k1 : ℚ)).newScore = (m : ℚ) ∧
        0 ≤ m ∧ m ≤ 10 ∧ (1 ≤ k1 → 1 ≤ m)) ∧
    (∀ (j : JsonAttempt AppealJson2) (raw : Str),
      (∃ m : ℤ, (parseAppealResponse2 j raw (k1 : ℚ) (k2 : ℚ)).newScore1 = (m : ℚ) ∧
        0 ≤ m ∧ m ≤ 10 ∧ (1 ≤ k1 → 1 ≤ m)) ∧
      (∃ m : ℤ, (parseAppealResponse2 j raw (k1 : ℚ) (k2 : ℚ)).newScore2 = (m : ℚ) ∧
        0 ≤ m ∧ m ≤ 10 ∧ (1 ≤ k2 → 1 ≤ m))) := by
  refine ⟨?_, ?_, ?_, ?_⟩
  · intro j raw
    cases j with
    | ok p =>
      cases hp : p.score with
      | some sc =>
        simp only [parseScoringResponse, scoringFromJson, hp]
        omega
      | none =>
        simp only [parseScoringResponse, scoringFromJson, hp, scoringFallback]
        cases hn : findKeyNum "\"score\"" raw <;> simp only [hn] <;> split <;> omega
    | fail =>
      simp only [parseScoringResponse, scoringFallback]
      cases hn : findKeyNum "\"score\"" raw <;> simp only [hn] <;> split <;> omega
  · intro j raw
    cases j with
    | ok p =>
      cases hp1 : p.score1 with
      | some s1 =>
        cases hp2 : p.score2 with
        | some s2 =>
          simp only [parseScoringResponse2, scoringFromJson2, hp1, hp2]
          omega
        | none =>
          simp only [parseScoringResponse2, scoringFromJson2, hp1, hp2, scoringFallback2]
          cases hn1 : findKeyNum "\"score1\"" raw <;> cases hn2 : findKeyNum "\"score2\"" raw <;>
            simp only [hn1, hn2] <;> refine ⟨?_, ?_⟩ <;> constructor <;> split <;> omega
      | none =>
        simp only [parseScoringResponse2, scoringFromJson2, hp1, scoringFallback2]
        cases hn1 : findKeyNum "\"score1\"" raw <;> cases hn2 : findKeyNum "\"score2\"" raw <;>
          simp only [hn1, hn2] <;> refine ⟨?_, ?_⟩ <;> constructor <;> split <;> omega
    | fail =>
      simp only [parseScoringResponse2, scoringFallback2]
      cases hn1 : findKeyNum "\"score1\"" raw <;> cases hn2 : findKeyNum "\"score2\"" raw <;>
        simp only [hn1, hn2] <;> refine ⟨?_, ?_⟩ <;> constructor <;> split <;> omega
  · intro j raw
    cases j with
    | ok p =>
      cases hp : p.newScore with
      | some ns =>
        simp only [parseAppealResponse, appealFromJson, hp]
        exact clampAppeal_int_bounds k1 h01 h11 _
      | none =>
        simp only [parseAppealResponse, appealFromJson, hp]
        exact clampAppeal_int_bounds k1 h01 h11 _
    | fail =>
      exact clampAppeal_int_bounds k1 h01 h11 _
  · intro j raw
    cases j with
    | ok p =>
      cases hp1 : p.newScore1 with
      | some ns1 =>
        cases hp2 : p.newScore2 with
        | some ns2 =>
          simp only [parseAppealResponse2, appealFromJson2, hp1, hp2]
          exact ⟨clampAppeal_int_bounds k1 h01 h11 _, clampAppeal_int_bounds k2 h02 h12 _⟩
        | none =>
          simp only [parseAppealResponse2, appealFromJson2, hp1, hp2]
          exact ⟨clampAppeal_int_bounds k1 h01 h11 _, clampAppeal_int_bounds k2 h02 h12 _⟩
      | none =>
        simp only [parseAppealResponse2, appealFromJson2, hp1]
        exact ⟨clampAppeal_int_bounds k1 h01 h11 _, clampAppeal_int_bounds k2 h02 h12 _⟩
    | fail =>
      exact ⟨clampAppeal_int_bounds k1 h01 h11 _, clampAppeal_int_bounds k2 h02 h12 _⟩

/-- Witness for C2: a non-integer, out-of-range model score 23/2 on the
single scoring endpoint still lands in 1–10, and an appeal at original
score 6 returns an integer 1–10. -/
theorem scores_in_range_witness :
    (1 ≤ (parseScoringResponse (.ok ⟨some (23 / 2), none, none⟩) []).score ∧
      (parseScoringResponse (.ok ⟨some (23 / 2), none, none⟩) []).score ≤ 10) ∧
    (∃ m : ℤ, (parseAppealResponse .fail (strChars "junk") ((6 : ℤ) : ℚ)).newScore = (m : ℚ) ∧
      0 ≤ m ∧ m ≤ 10 ∧ (1 ≤ (6 : ℤ) → 1 ≤ m)) := by
  have h := scores_in_range 6 4 (by norm_num) (by norm_num) (by norm_num) (by norm_num)
  exact ⟨h.1 (.ok ⟨some (23 / 2), none, none⟩) [], h.2.2.1 .fail (strChars "junk")⟩

/-- C4 (amended): the returned `accepted` flag is true exactly when a
returned score strictly exceeds its original, or the reply parsed as JSON
with the numeric score field(s) present and an `accepted: true` field; an
`accepted: true` field in a reply without a numeric score field is
ignored. -/
theorem accepted_iff_amended :
    (∀ (j : JsonAttempt AppealJson) (raw : Str) (o : ℚ),
      ((parseAppealResponse j raw o).accepted = true ↔
        (o < (parseAppealResponse j raw o).newScore ∨
          ((jsonNewScore j).isSome = true ∧ hasAcceptedTrue j = true)))) ∧
    (∀ (j : JsonAttempt AppealJson2) (raw : Str) (o1 o2 : ℚ),
      ((parseAppealResponse2 j raw o1 o2).accepted = true ↔
        (o1 < (parseAppealResponse2 j raw o1 o2).newScore1 ∨
          o2 < (parseAppealResponse2 j raw o1 o2).newScore2 ∨
          ((jsonNewScores2 j).isSome = true ∧ hasAcceptedTrue2 j = true)))) := by
  constructor
  · intro j raw o
    cases j with
    | ok p =>
      cases hp : p.newScore with
      | some ns =>
        simp only [parseAppealResponse, appealFromJson, hp, jsonNewScore, hasAcceptedTrue,
          Bool.or_eq_true, decide_eq_true_eq, Option.isSome_some]
        tauto
      | none =>
        simp only [parseAppealResponse, appealFromJson, hp, appealFallback, jsonNewScore,
          hasAcceptedTrue, decide_eq_true_eq, Option.isSome_none, Bool.false_eq_true,
          false_and, or_false]
    | fail =>
      simp only [parseAppealResponse, appealFallback, jsonNewScore, hasAcceptedTrue,
        decide_eq_true_eq, Option.isSome_none, Bool.false_eq_true, false_and, or_false,
        and_false]
  · intro j raw o1 o2
    cases j with
    | ok p =>
      cases hp1 : p.newScore1 with
      | some ns1 =>
        cases hp2 : p.newScore2 with
        | some ns2 =>
          simp only [parseAppealResponse2, appealFromJson2, hp1, hp2, jsonNewScores2,
            hasAcceptedTrue2, Bool.or_eq_true, decide_eq_true_eq, Option.isSome_some]
          tauto
        | none =>
          simp only [parseAppealResponse2, appealFromJson2, hp1, hp2, appealFallback2,
            jsonNewScores2, hasAcceptedTrue2, Bool.or_eq_true, decide_eq_true_eq,
            Option.isSome_none, Bool.false_eq_true, false_and, or_false]
      | none =>
        simp only [parseAppealResponse2, appealFromJson2, hp1, appealFallback2,
          jsonNewScores2, hasAcceptedTrue2, Bool.or_eq_true, decide_eq_true_eq,
          Option.isSome_none, Bool.false_eq_true, false_and, or_false]
    | fail =>
      simp only [parseAppealResponse2, appealFallback2, jsonNewScores2, hasAcceptedTrue2,
        Bool.or_eq_true, decide_eq_true_eq, Option.isSome_none, Bool.false_eq_true,
        false_and, or_false, and_false]

/-- Counterexample to C4 as stated: the reply `\x7b"accepted": true\x7d` is
valid JSON that explicitly flags acceptance, yet — having no numeric
`newScore` — it is handled by the regex fallback, which returns the original
score 6 with `accepted: false`; so `accepted` is not equivalent to
"some score increased or the reply flagged acceptance". -/
theorem accepted_iff_counterexample :
    ¬ ((parseAppealResponse (.ok ⟨none, some true, none⟩)
        (strChars "\x7b\"accepted\": true\x7d") (6 : ℚ)).accepted = true ↔
      ((6 : ℚ) < (parseAppealResponse (.ok ⟨none, some true, none⟩)
        (strChars "\x7b\"accepted\": true\x7d") (6 : ℚ)).newScore ∨
        hasAcceptedTrue (.ok ⟨none, some true, none⟩) = true)) := by
  intro h
  have hd : findKeyDigit "\"newScore\"" (strChars "\x7b\"accepted\": true\x7d") = none := by
    decide
  rw [show (6 : ℚ) = ((6 : ℤ) : ℚ) by norm_num] at h
  simp only [parseAppealResponse, appealFromJson, appealFallback, hd,
    clampAppeal_self 6 (by norm_num), hasAcceptedTrue, decide_eq_true_eq] at h
  simp at h

/-- C10: the appeal fallback regex captures exactly one digit, so the
slightly malformed reply `\x7b"newScore": 10, "accepted": true,\x7d`
(a trailing comma defeats `JSON.parse`) yields the digit 1, and after the
clamp the original score 6 is returned with the raise to 10 silently
discarded (`accepted` is false). -/
theorem appeal_fallback_single_digit :
    findKeyDigit "\"newScore\""
      (strChars "\x7b\"newScore\": 10, \"accepted\": true,\x7d") = some 1 ∧
    (parseAppealResponse .fail
      (strChars "\x7b\"newScore\": 10, \"accepted\": true,\x7d") (6 : ℚ)).newScore = 6 ∧
    (parseAppealResponse .fail
      (strChars "\x7b\"newScore\": 10, \"accepted\": true,\x7d") (6 : ℚ)).accepted = false := by
  have hd : findKeyDigit "\"newScore\""
      (strChars "\x7b\"newScore\": 10, \"accepted\": true,\x7d") = some 1 := by decide
  have hc : clampAppeal (6 : ℚ) ((1 : ℕ) : ℚ) = 6 := by
    unfold clampAppeal
    rw [show ((1 : ℕ) : ℚ) = ((1 : ℤ) : ℚ) by norm_num, jround_intCast]
    norm_num
  refine ⟨hd, ?_, ?_⟩
  · simp only [parseAppealResponse, appealFallback, hd, hc]
  · simp only [parseAppealResponse, appealFallback, hd, hc]
    norm_num

/-- Counterexample to C3 as stated: the unparsable reply `hello` makes the
single-adjective scoring parser default the score to 5, but the reasoning
falls back to the raw text `hello`, not to the empty string. -/
theorem scoring_default_counterexample :
    (parseScoringResponse .fail (strChars "hello")).score = 5 ∧
    (parseScoringResponse .fail (strChars "hello")).reasoning = strChars "hello" ∧
    ¬ ((parseScoringResponse .fail (strChars "hello")).reasoning = []) := by
  have h5 : jround (5 : ℚ) = 5 := by
    rw [show (5 : ℚ) = ((5 : ℤ) : ℚ) by norm_num, jround_intCast]
  have hn : findKeyNum "\"score\"" (strChars "hello") = none := by decide
  have hr : findKeyStr true "\"reasoning\"" (strChars "hello") = none := by decide
  refine ⟨?_, ?_, ?_⟩
  · simp only [parseScoringResponse, scoringFallback, hn, hr, h5]
    decide
  · simp only [parseScoringResponse, scoringFallback, hn, hr]
  · simp only [parseScoringResponse, scoringFallback, hn, hr]
    decide

/-- C3 (amended): a scoring reply that is not valid JSON and from which the
fallback regexes can extract neither a score nor a reasoning parses, without
throwing, to the midpoint score 5 for each adjective — with the reasoning
defaulting to the raw text in the single-adjective variant and to the empty
string in the dual-adjective variant. -/
theorem scoring_default_amended (j1 : JsonAttempt ScoringJson)
    (j2 : JsonAttempt ScoringJson2) (raw : Str)
    (h1 : ∀ p, j1 = .ok p → p.score = none)
    (h2 : ∀ p, j2 = .ok p → p.score1 = none ∨ p.score2 = none)
    (hn : findKeyNum "\"score\"" raw = none)
    (hn1 : findKeyNum "\"score1\"" raw = none)
    (hn2 : findKeyNum "\"score2\"" raw = none)
    (hr : findKeyStr true "\"reasoning\"" raw = none)
    (hr1 : findKeyStr false "\"reasoning1\"" raw = none)
    (hr2 : findKeyStr false "\"reasoning2\"" raw = none) :
    parseScoringResponse j1 raw =
      { score := 5, reasoning := raw, favoriteIndex := none } ∧
    parseScoringResponse2 j2 raw =
      { score1 := 5, score2 := 5, reasoning1 := [], reasoning2 := [] } := by
  have h5 : jround (5 : ℚ) = 5 := by
    rw [show (5 : ℚ) = ((5 : ℤ) : ℚ) by norm_num, jround_intCast]
  constructor
  · have hfb : scoringFallback raw =
        { score := 5, reasoning := raw, favoriteIndex := none } := by
      simp only [scoringFallback, hn, hr, h5]
      congr 1
    cases j1 with
    | ok p =>
      have hp : p.score = none := h1 p rfl
      simp only [parseScoringResponse, scoringFromJson, hp, hfb]
    | fail =>
      simp only [parseScoringResponse, hfb]
  · have hfb2 : scoringFallback2 raw =
        { score1 := 5, score2 := 5, reasoning1 := [], reasoning2 := [] } := by
      simp only [scoringFallback2, hn1, hn2, hr1, hr2, h5]
      congr 1
    cases j2 with
    | ok p =>
      rcases h2 p rfl with hp | hp
      · cases hq : p.score1 with
        | some s1 =>
          rw [hp] at hq
          cases hq
        | none =>
          simp only [parseScoringResponse2, scoringFromJson2, hq, hfb2]
      · cases hq1 : p.score1 with
        | some s1 =>
          simp only [parseScoringResponse2, scoringFromJson2, hq1, hp, hfb2]
        | none =>
          simp only [parseScoringResponse2, scoringFromJson2, hq1, hfb2]
    | fail =>
      simp only [parseScoringResponse2, hfb2]

/-- Witness for the amended C3 at the concrete unparsable reply `hello`. -/
theorem scoring_default_amended_witness :
    parseScoringResponse .fail (strChars "hello") =
      { score := 5, reasoning := strChars "hello", favoriteIndex := none } ∧
    parseScoringResponse2 .fail (strChars "hello") =
      { score1 := 5, score2 := 5, reasoning1 := [], reasoning2 := [] } :=
  scoring_default_amended .fail .fail (strChars "hello")
    (fun p h => by cases h) (fun p h => by cases h)
    (by decide) (by decide) (by decide) (by decide) (by decide) (by decide)

/-- C9: the single-adjective appeal route's truthiness validation replies 400
to every request whose `originalScore` is 0 (or missing), so a passed slot's
score 0 can never be appealed there; the dual-adjective route checks
`typeof === "number"` and accepts an original score of 0. -/
theorem appeal_validation_zero_score
    (adj1 adj2 noun txt : Option Str) (o2 : ℚ)
    (ha1 : truthyStr adj1 = true) (ha2 : truthyStr adj2 = true)
    (hn : truthyStr noun = true) (ht : truthyStr txt = true) :
    singleAppealRejected adj1 noun (some 0) txt = true ∧
    singleAppealRejected adj1 noun none txt = true ∧
    dualAppealRejected adj1 adj2 noun (some 0) (some o2) txt = false := by
  refine ⟨?_, ?_, ?_⟩
  · simp [singleAppealRejected, truthyNum]
  · simp [singleAppealRejected, truthyNum]
  · simp [dualAppealRejected, ha1, ha2, hn, ht]

/-- Witness for C9 at concrete request fields. -/
theorem appeal_validation_zero_score_witness :
    singleAppealRejected (some (strChars "sticky")) (some (strChars "glue"))
      (some 0) (some (strChars "be fair")) = true ∧
    singleAppealRejected (some (strChars "sticky")) (some (strChars "glue"))
      none (some (strChars "be fair")) = true ∧
    dualAppealRejected (some (strChars "sticky")) (some (strChars "nostalgic"))
      (some (strChars "glue")) (some 0) (some 7) (some (strChars "be fair")) = false :=
  appeal_validation_zero_score (some (strChars "sticky")) (some (strChars "nostalgic"))
    (some (strChars "glue")) (some (strChars "be fair")) 7
    (by decide) (by decide) (by decide) (by decide)

/-! ## List facts used by the selector and state-machine claims -/

theorem mapWithIndex_get (f : ℕ → α → β) (l : List α) (i : ℕ) :
    (mapWithIndex f l).get? i = (l.get? i).map (f i) := by
  induction l generalizing f i with
  | nil => simp [mapWithIndex]
  | cons a as ih =>
    cases i with
    | zero => simp [mapWithIndex]
    | succ n => simpa [mapWithIndex] using ih (fun i => f (i + 1)) n

theorem mapWithIndex_length (f : ℕ → α → β) (l : List α) :
    (mapWithIndex f l).length = l.length := by
  induction l generalizing f with
  | nil => rfl
  | cons a as ih => simpa [mapWithIndex] using ih (fun i => f (i + 1))

theorem mapWithIndex_eq_self (f : ℕ → α → α) (l : List α)
    (h : ∀ i a, l.get? i = some a → f i a = a) : mapWithIndex f l = l := by
  induction l generalizing f with
  | nil => rfl
  | cons a as ih =>
    simp only [mapWithIndex]
    rw [h 0 a rfl, ih]
    intro i b hb
    exact h (i + 1) b hb

theorem mapWithIndex_comp (f g : ℕ → α → α) (l : List α) :
    mapWithIndex f (mapWithIndex g l) = mapWithIndex (fun i a => f i (g i a)) l := by
  induction l generalizing f g with
  | nil => rfl
  | cons a as ih => simp only [mapWithIndex, ih]

theorem length_eraseIdx_of_lt (l : List α) (i : ℕ) (h : i < l.length) :
    (l.eraseIdx i).length = l.length - 1 := by
  induction l generalizing i with
  | nil => simp at h
  | cons a as ih =>
    cases i with
    | zero => simp [List.eraseIdx]
    | succ n =>
      simp only [List.eraseIdx, List.length_cons]
      rw [ih n (by simpa using h)]
      simp only [List.length_cons] at h
      omega

theorem mem_of_mem_eraseIdx {l : List α} {i : ℕ} {x : α}
    (h : x ∈ l.eraseIdx i) : x ∈ l := by
  induction l generalizing i with
  | nil => simp [List.eraseIdx] at h
  | cons a as ih =>
    cases i with
    | zero =>
      simp only [List.eraseIdx] at h
      exact List.mem_cons_of_mem a h
    | succ n =>
      simp only [List.eraseIdx] at h
      rcases List.mem_cons.mp h with h | h
      · exact h ▸ List.mem_cons_self a as
      · exact List.mem_cons_of_mem a (ih h)

theorem nodup_eraseIdx {l : List α} (hl : l.Nodup) (i : ℕ) :
    (l.eraseIdx i).Nodup := by
  induction l generalizing i with
  | nil => simp [List.eraseIdx]
  | cons a as ih =>
    cases i with
    | zero => exact (List.nodup_cons.mp hl).2
    | succ n =>
      rcases List.nodup_cons.mp hl with ⟨ha, has⟩
      exact List.nodup_cons.mpr ⟨fun hm => ha (mem_of_mem_eraseIdx hm), ih has n⟩

theorem get_not_mem_eraseIdx {l : List α} (hl : l.Nodup) {i : ℕ} {x : α}
    (hx : l.get? i = some x) : x ∉ l.eraseIdx i := by
  induction l generalizing i with
  | nil => simp at hx
  | cons a as ih =>
    cases i with
    | zero =>
      cases hx
      simpa [List.eraseIdx] using (List.nodup_cons.mp hl).1
    | succ n =>
      rcases List.nodup_cons.mp hl with ⟨ha, has⟩
      simp only [List.eraseIdx, List.mem_cons, not_or]
      refine ⟨?_, ih has hx⟩
      intro hxa
      exact ha (hxa ▸ List.get?_mem hx)

theorem getD_mem_of_lt (l : List α) (i : ℕ) (d : α) (h : i < l.length) :
    l.getD i d ∈ l := by
  induction l generalizing i with
  | nil => simp at h
  | cons a as ih =>
    cases i with
    | zero => simp [List.getD]
    | succ n =>
      simp only [List.getD] at *
      rcases List.mem_cons.mp (List.mem_cons_self a as) with _ | _
      all_goals
        exact List.mem_cons_of_mem a (by simpa using ih n (by simpa using h))

theorem get?_eq_some_getD (l : List α) (i : ℕ) (d : α) (h : i < l.length) :
    l.get? i = some (l.getD i d) := by
  induction l generalizing i with
  | nil => simp at h
  | cons a as ih =>
    cases i with
    | zero => rfl
    | succ n => exact ih n (by simpa using h)

theorem drawLoop_length (n : ℕ) (h : ℕ) (pool : List Str) :
    (drawLoop n h pool).length = n := by
  induction n generalizing h pool with
  | zero => rfl
  | succ m ih => simp [drawLoop, ih]

theorem drawLoop_mem (n : ℕ) (h : ℕ) (pool : List Str) (hn : n ≤ pool.length) :
    ∀ x ∈ drawLoop n h pool, x ∈ pool := by
  induction n generalizing h pool with
  | zero =>
    intro x hx
    simp [drawLoop] at hx
  | succ m ih =>
    intro x hx
    have hlen : 0 < pool.length := by omega
    have hidx : lcgStep h % pool.length < pool.length := Nat.mod_lt _ hlen
    simp only [drawLoop, List.mem_cons] at hx
    rcases hx with hx | hx
    · exact hx ▸ getD_mem_of_lt pool _ [] hidx
    · have hm : m ≤ (pool.eraseIdx (lcgStep h % pool.length)).length := by
        rw [length_eraseIdx_of_lt pool _ hidx]
        omega
      exact mem_of_mem_eraseIdx (ih (lcgStep h) _ hm x hx)

theorem drawLoop_nodup (n : ℕ) (h : ℕ) (pool : List Str) (hp : pool.Nodup)
    (hn : n ≤ pool.length) : (drawLoop n h pool).Nodup := by
  induction n generalizing h pool with
  | zero => simp [drawLoop]
  | succ m ih =>
    have hlen : 0 < pool.length := by omega
    have hidx : lcgStep h % pool.length < pool.length := Nat.mod_lt _ hlen
    have herase : m ≤ (pool.eraseIdx (lcgStep h % pool.length)).length := by
      rw [length_eraseIdx_of_lt pool _ hidx]
      omega
    simp only [drawLoop]
    refine List.nodup_cons.mpr ⟨?_, ih (lcgStep h) _ (nodup_eraseIdx hp _) herase⟩
    intro hmem
    have h1 : pool.getD (lcgStep h % pool.length) [] ∈
        pool.eraseIdx (lcgStep h % pool.length) :=
      drawLoop_mem m _ _ herase _ hmem
    exact get_not_mem_eraseIdx hp (get?_eq_some_getD pool _ [] hidx) h1

theorem pickRandom_cases (count : ℕ) (pool : List Str) (seed : Str)
    (hp : pool.Nodup) :
    (pickRandomAdjectives count pool seed).Nodup ∧
    (pool.length ≤ count → pickRandomAdjectives count pool seed = pool) ∧
    (count < pool.length →
      (pickRandomAdjectives count pool seed).length = count ∧
      ∀ x ∈ pickRandomAdjectives count pool seed, x ∈ pool) := by
  by_cases h : pool.length ≤ count
  · unfold pickRandomAdjectives
    rw [if_pos h]
    exact ⟨hp, fun _ => rfl, fun hc => absurd h (not_le.mpr hc)⟩
  · unfold pickRandomAdjectives
    rw [if_neg h]
    push_neg at h
    exact ⟨drawLoop_nodup _ _ _ hp h.le, fun hle => absurd hle (not_le.mpr h),
      fun _ => ⟨drawLoop_length _ _ _, drawLoop_mem _ _ _ h.le⟩⟩

/-- Counterexample to C5 as stated: on the preset date 2025-12-10 with the
two-distinct-string pool `["a"]` (size 1 ≤ count 2), the selector does not
return the whole pool — it returns the preset pair, whose members are not
members of the pool. -/
theorem pickDaily_pool_counterexample :
    pickDailyAdjectives (strChars "2025-12-10-v1") 2 [strChars "a"] [] =
      [strChars "sticky", strChars "nostalgic"] ∧
    ¬ (pickDailyAdjectives (strChars "2025-12-10-v1") 2 [strChars "a"] [] =
      [strChars "a"]) ∧
    ¬ (∀ x ∈ pickDailyAdjectives (strChars "2025-12-10-v1") 2 [strChars "a"] [],
      x ∈ [strChars "a"]) := by
  refine ⟨by decide, by decide, ?_⟩
  intro h
  exact absurd (h (strChars "sticky") (by decide)) (by decide)

/-- C5 (amended): for every dateKey whose ten-character date window parses as
a valid date and every pool of distinct strings, `pickDailyAdjectives` is
deterministic — the hidden current-time seed is never consulted — and its
output is duplicate-free; when the date falls in the 14-day preset window
and the preset pair at the day offset has length `count`, that preset pair
is returned verbatim (regardless of the pool); otherwise the output is drawn
from the pool: the whole pool, in order, when the pool has at most `count`
elements, and exactly `count` distinct members of the pool when it is
larger. -/
theorem pickDaily_amended (dateKey p : Str) (cur : ℤ) (count : ℕ)
    (pool : List Str) (now1 now2 : Str)
    (hm : matchDateStart dateKey = some p)
    (hv : utcDayNumber p = some cur)
    (hp : pool.Nodup) :
    pickDailyAdjectives dateKey count pool now1 =
      pickDailyAdjectives dateKey count pool now2 ∧
    (pickDailyAdjectives dateKey count pool now1).Nodup ∧
    (∀ pre, 0 ≤ cur - 20432 → cur - 20432 < (PRESET_PAIRS.length : ℤ) →
      PRESET_PAIRS.get? (cur - 20432).toNat = some pre → pre.length = count →
      pickDailyAdjectives dateKey count pool now1 = pre) ∧
    (¬ ((0 ≤ cur - 20432 ∧ cur - 20432 < (PRESET_PAIRS.length : ℤ)) ∧
        ∃ pre, PRESET_PAIRS.get? (cur - 20432).toNat = some pre ∧
          pre.length = count) →
      ((pool.length ≤ count → pickDailyAdjectives dateKey count pool now1 = pool) ∧
       (count < pool.length →
         (pickDailyAdjectives dateKey count pool now1).length = count ∧
         ∀ x ∈ pickDailyAdjectives dateKey count pool now1, x ∈ pool))) := by
  have hs : utcDayNumber PRESET_START_DATE = some 20432 := by decide
  have hrand := pickRandom_cases count pool dateKey hp
  simp only [pickDailyAdjectives, hm, hv, hs]
  refine ⟨trivial, ?_⟩
  by_cases hw : 0 ≤ cur - 20432 ∧ cur - 20432 < (PRESET_PAIRS.length : ℤ)
  · rw [if_pos hw]
    cases hpre : PRESET_PAIRS.get? (cur - 20432).toNat with
    | some pre =>
      simp only [hpre]
      by_cases hl : pre.length = count
      · rw [if_pos hl]
        have hmem : pre ∈ PRESET_PAIRS := List.get?_mem hpre
        have hnodup : ∀ q ∈ PRESET_PAIRS, q.Nodup := by decide
        refine ⟨hnodup pre hmem, ?_, ?_⟩
        · intro pre2 h0 h1 hget hlen2
          exact Option.some.inj hget
        · intro hno
          exact absurd ⟨hw, pre, rfl, hl⟩ hno
      · rw [if_neg hl]
        refine ⟨hrand.1, ?_, fun _ => ⟨hrand.2.1, hrand.2.2⟩⟩
        intro pre2 h0 h1 hget hlen2
        obtain rfl := Option.some.inj hget
        exact absurd hlen2 hl
    | none =>
      simp only [hpre]
      refine ⟨hrand.1, ?_, fun _ => ⟨hrand.2.1, hrand.2.2⟩⟩
      intro pre2 h0 h1 hget hlen2
      cases hget
  · rw [if_neg hw]
    refine ⟨hrand.1, ?_, fun _ => ⟨hrand.2.1, hrand.2.2⟩⟩
    intro pre2 h0 h1 hget hlen2
    exact absurd ⟨h0, h1⟩ hw

/-- Witness for the amended C5 at the post-preset date 2026-01-05 (day
offset 26, outside the window) with the full adjective pool: two different
hidden time seeds give the same result, which is duplicate-free and consists
of exactly two distinct members of the pool. -/
theorem pickDaily_amended_witness :
    pickDailyAdjectives (strChars "2026-01-05-v4") 2 BASE_ADJECTIVES (strChars "1") =
      pickDailyAdjectives (strChars "2026-01-05-v4") 2 BASE_ADJECTIVES (strChars "2") ∧
    (pickDailyAdjectives (strChars "2026-01-05-v4") 2 BASE_ADJECTIVES (strChars "1")).Nodup ∧
    (pickDailyAdjectives (strChars "2026-01-05-v4") 2 BASE_ADJECTIVES (strChars "1")).length = 2 ∧
    ∀ x ∈ pickDailyAdjectives (strChars "2026-01-05-v4") 2 BASE_ADJECTIVES (strChars "1"),
      x ∈ BASE_ADJECTIVES := by
  obtain ⟨hdet, hnd, -, hout⟩ := pickDaily_amended (strChars "2026-01-05-v4")
    (strChars "2026-01-05") 20458 2 BASE_ADJECTIVES (strChars "1") (strChars "2")
    (by decide) (by decide) (by decide)
  have h := (hout (fun hwin => absurd hwin.1.2 (by decide))).2 (by decide)
  exact ⟨hdet, hnd, h.1, h.2⟩

theorem pickDaily_preset_one (d suffix : Str) (pool : List Str) (now : Str)
    (k : ℕ) (pre : List Str)
    (hlen : d.length = 10) (hshape : dateShape d = true)
    (hday : utcDayNumber d = some (20432 + (k : ℤ)))
    (hk : k < PRESET_PAIRS.length)
    (hget : PRESET_PAIRS.get? k = some pre) (hpre : pre.length = 2) :
    pickDailyAdjectives (d ++ suffix) 2 pool now = pre := by
  have hmatch : matchDateStart (d ++ suffix) = some d := by
    simp only [matchDateStart,
      show (d ++ suffix).take 10 = d from by rw [← hlen]; exact List.take_left d suffix,
      hshape, if_true]
  have hs : utcDayNumber PRESET_START_DATE = some 20432 := by decide
  have hw : (0 : ℤ) ≤ 20432 + (k : ℤ) - 20432 ∧
      20432 + (k : ℤ) - 20432 < (PRESET_PAIRS.length : ℤ) := by
    constructor <;> omega
  have ht : ((20432 + (k : ℤ)) - 20432).toNat = k := by omega
  simp only [pickDailyAdjectives, hmatch, hday, hs, if_pos hw, ht, hget, if_pos hpre]

/-- C6: for each of the 14 consecutive calendar days starting at the epoch
2025-12-10 and any suffix on the dateKey, `pickDailyAdjectives(dateKey, 2,
pool)` returns the corresponding preset pair verbatim for every pool; in
particular `pickDailyAdjectives("2025-12-10-v1", 2, BASE_ADJECTIVES)` is
`["sticky", "nostalgic"]`. -/
theorem pickDaily_preset_window (i : Fin 14) (suffix : Str) (pool : List Str)
    (now : Str) :
    pickDailyAdjectives (PRESET_DATE_KEYS.getD i.val [] ++ suffix) 2 pool now =
      PRESET_PAIRS.getD i.val [] ∧
    pickDailyAdjectives (strChars "2025-12-10-v1") 2 BASE_ADJECTIVES now =
      [strChars "sticky", strChars "nostalgic"] := by
  constructor
  · fin_cases i
    · exact pickDaily_preset_one _ suffix pool now 0 _ (by decide) (by decide)
        (by decide) (by decide) (by decide) (by decide)
    · exact pickDaily_preset_one _ suffix pool now 1 _ (by decide) (by decide)
        (by decide) (by decide) (by decide) (by decide)
    · exact pickDaily_preset_one _ suffix pool now 2 _ (by decide) (by decide)
        (by decide) (by decide) (by decide) (by decide)
    · exact pickDaily_preset_one _ suffix pool now 3 _ (by decide) (by decide)
        (by decide) (by decide) (by decide) (by decide)
    · exact pickDaily_preset_one _ suffix pool now 4 _ (by decide) (by decide)
        (by decide) (by decide) (by decide) (by decide)
    · exact pickDaily_preset_one _ suffix pool now 5 _ (by decide) (by decide)
        (by decide) (by decide) (by decide) (by decide)
    · exact pickDaily_preset_one _ suffix pool now 6 _ (by decide) (by decide)
        (by decide) (by decide) (by decide) (by decide)
    · exact pickDaily_preset_one _ suffix pool now 7 _ (by decide) (by decide)
        (by decide) (by decide) (by decide) (by decide)
    · exact pickDaily_preset_one _ suffix pool now 8 _ (by decide) (by decide)
        (by decide) (by decide) (by decide) (by decide)
    · exact pickDaily_preset_one _ suffix pool now 9 _ (by decide) (by decide)
        (by decide) (by decide) (by decide) (by decide)
    · exact pickDaily_preset_one _ suffix pool now 10 _ (by decide) (by decide)
        (by decide) (by decide) (by decide) (by decide)
    · exact pickDaily_preset_one _ suffix pool now 11 _ (by decide) (by decide)
        (by decide) (by decide) (by decide) (by decide)
    · exact pickDaily_preset_one _ suffix pool now 12 _ (by decide) (by decide)
        (by decide) (by decide) (by decide) (by decide)
    · exact pickDaily_preset_one _ suffix pool now 13 _ (by decide) (by decide)
        (by decide) (by decide) (by decide) (by decide)
  · rw [show strChars "2025-12-10-v1" = strChars "2025-12-10" ++ strChars "-v1" from by
      decide]
    exact pickDaily_preset_one (strChars "2025-12-10") (strChars "-v1") BASE_ADJECTIVES
      now 0 [strChars "sticky", strChars "nostalgic"] (by decide) (by decide) (by decide)
      (by decide) (by decide) (by decide)

theorem mapWithIndex_congr (f g : ℕ → α → β) (l : List α)
    (h : ∀ i a, f i a = g i a) : mapWithIndex f l = mapWithIndex g l := by
  induction l generalizing f g with
  | nil => rfl
  | cons a as ih =>
    simp only [mapWithIndex, h 0 a]
    rw [ih (fun i => f (i + 1)) (fun i => g (i + 1)) (fun i b => h (i + 1) b)]

theorem appealed_after_map (f : ℕ → GuessResult → GuessResult)
    (hf : ∀ i g, (f i g).appealed = g.appealed ∨ (f i g).appealed = some true)
    (l : List GuessResult) (i : ℕ)
    (h : (l.get? i).map (fun g => g.appealed) = some (some true)) :
    ((mapWithIndex f l).get? i).map (fun g => g.appealed) = some (some true) := by
  rw [mapWithIndex_get]
  cases hg : l.get? i with
  | none => rw [hg] at h; cases h
  | some g =>
    rw [hg] at h
    simp only [Option.map_some'] at h ⊢
    rcases hf i g with h2 | h2
    · rw [h2]
      exact h
    · rw [h2]

/-- C7: applying an appeal result decrements `appealsRemaining` by one with a
floor of 0 (whatever the token flag or acceptance outcome), marks the slot
`appealed`, and that mark survives every other state-machine operation; no
operation but creating a fresh game (which starts at 1) ever increases
`appealsRemaining`.  The multi-category variant's appeal step behaves the
same way. -/
theorem appeal_token_consumption (s : GameState) (ms : MGameState)
    (roundIndex : ℕ) (newScores : ℤ × ℤ) (newReasonings : Str × Str)
    (b b1 b2 : Bool) (noun : Str) (scores : ℤ × ℤ) (reasonings : Str × Str)
    (ai ri : ℕ) (mNewScore : ℤ) (mReasoning : Str) (fav : Option ℚ) :
    ((applyAppealResult s roundIndex newScores newReasonings b).appealsRemaining =
      max 0 (s.appealsRemaining - 1)) ∧
    (0 ≤ s.appealsRemaining →
      (applyAppealResult s roundIndex newScores newReasonings b).appealsRemaining ≤
        s.appealsRemaining) ∧
    (roundIndex < s.guesses.length →
      ((applyAppealResult s roundIndex newScores newReasonings b).guesses.get?
        roundIndex).map (fun g => g.appealed) = some (some true)) ∧
    (applyAppealResult s roundIndex newScores newReasonings b1 =
      applyAppealResult s roundIndex newScores newReasonings b2) ∧
    ((submitGuessLocally s roundIndex noun).appealsRemaining = s.appealsRemaining) ∧
    ((submitPassLocally s roundIndex).appealsRemaining = s.appealsRemaining) ∧
    ((advanceTurn s).appealsRemaining = s.appealsRemaining) ∧
    ((applyScore s roundIndex scores reasonings).appealsRemaining =
      s.appealsRemaining) ∧
    (∀ dateKey nowStr st, createNewDailyState dateKey nowStr = some st →
      st.appealsRemaining = 1) ∧
    (∀ i, ((s.guesses.get? i).map (fun g => g.appealed) = some (some true)) →
      (((submitGuessLocally s roundIndex noun).guesses.get? i).map
          (fun g => g.appealed) = some (some true)) ∧
      (((submitPassLocally s roundIndex).guesses.get? i).map
          (fun g => g.appealed) = some (some true)) ∧
      (((advanceTurn s).guesses.get? i).map
          (fun g => g.appealed) = some (some true)) ∧
      (((applyScore s roundIndex scores reasonings).guesses.get? i).map
          (fun g => g.appealed) = some (some true)) ∧
      (((applyAppealResult s roundIndex newScores newReasonings b).guesses.get? i).map
          (fun g => g.appealed) = some (some true))) ∧
    ((mApplyAppealResult ms ai ri mNewScore mReasoning b fav).appealsRemaining =
      max 0 (ms.appealsRemaining - 1)) ∧
    (∀ row, ms.guesses.get? ai = some row → ri < row.length →
      ((((mApplyAppealResult ms ai ri mNewScore mReasoning b fav).guesses.get? ai).bind
        (fun row2 => row2.get? ri)).map (fun g => g.appealed)) = some (some true)) := by
  refine ⟨rfl, ?_, ?_, rfl, rfl, rfl, rfl, rfl, ?_, ?_, rfl, ?_⟩
  · intro h0
    simp only [applyAppealResult]
    omega
  · intro hlt
    simp only [applyAppealResult, mapWithIndex_get]
    cases hg : s.guesses.get? roundIndex with
    | none =>
      rw [List.get?_eq_none] at hg
      omega
    | some g =>
      simp
  · intro dateKey nowStr st h
    unfold createNewDailyState at h
    split at h
    · exact (Option.some.inj h) ▸ rfl
    · cases h
  · intro i hi
    refine ⟨?_, ?_, hi, ?_, ?_⟩
    · refine appealed_after_map _ ?_ _ _ hi
      intro k g
      by_cases hk : k = roundIndex <;> simp [hk]
    · refine appealed_after_map _ ?_ _ _ hi
      intro k g
      unfold passSlot
      by_cases hk : k = roundIndex
      · simp [hk]
      · rw [if_neg hk]
        split <;> simp
    · simp only [applyScore]
      split
      · refine appealed_after_map _ ?_ _ _ (appealed_after_map _ ?_ _ _ hi) <;>
        · intro k g
          split <;> simp
      · refine appealed_after_map _ ?_ _ _ hi
        intro k g
        split <;> simp
    · refine appealed_after_map _ ?_ _ _ hi
      intro k g
      by_cases hk : k = roundIndex <;> simp [hk]
  · intro row hrow hri
    simp only [mApplyAppealResult, mapWithIndex_get, hrow, Option.map_some',
      Option.some_bind, mapWithIndex_get]
    cases hg : row.get? ri with
    | none =>
      rw [List.get?_eq_none] at hg
      omega
    | some g =>
      simp

/-- Witness for C7: appealing the first guess of a one-guess game drops the
token from 1 to 0 and marks the slot appealed. -/
theorem appeal_token_consumption_witness :
    (applyAppealResult
      { mode := .daily, dateKey := [], adjectives := ([], []),
        guesses := [{ noun := strChars "glue", scores := some (6, 4) }],
        currentTurnIndex := 0, appealsRemaining := 1 } 0 (7, 4) ([], [])
      true).appealsRemaining = 0 ∧
    ((applyAppealResult
      { mode := .daily, dateKey := [], adjectives := ([], []),
        guesses := [{ noun := strChars "glue", scores := some (6, 4) }],
        currentTurnIndex := 0, appealsRemaining := 1 } 0 (7, 4) ([], [])
      true).guesses.get? 0).map (fun g => g.appealed) = some (some true) := by
  have h := appeal_token_consumption
    { mode := .daily, dateKey := [], adjectives := ([], []),
      guesses := [{ noun := strChars "glue", scores := some (6, 4) }],
      currentTurnIndex := 0, appealsRemaining := 1 }
    { mode := .daily, dateKey := [], adjectives := [], guesses := [],
      currentTurnIndex := 0, appealsRemaining := 0, favoriteIndices := none }
    0 (7, 4) ([], []) true true true [] (0, 0) ([], []) 0 0 0 [] none
  exact ⟨h.1, h.2.2.1 (by decide)⟩


/-- Counterexample to C8 as stated: submitting a pass on a slot that is
already passed (`isPass: true`) is not always a no-op.  A slot auto-passed
by a perfect score holds `scores: [10, 10]`; passing it forces the scores to
`[0, 0]` and auto-passes the empty slots after it. -/
theorem submitPass_noop_counterexample :
    submitPassLocally
      { mode := .daily, dateKey := [], adjectives := ([], []),
        guesses := [{ noun := strChars "Perfect Score Achieved",
                      scores := some (10, 10), isPass := some true },
                    { noun := [] }, { noun := [] }, { noun := [] }, { noun := [] }],
        currentTurnIndex := 1, appealsRemaining := 1 } 0 ≠
      { mode := .daily, dateKey := [], adjectives := ([], []),
        guesses := [{ noun := strChars "Perfect Score Achieved",
                      scores := some (10, 10), isPass := some true },
                    { noun := [] }, { noun := [] }, { noun := [] }, { noun := [] }],
        currentTurnIndex := 1, appealsRemaining := 1 } := by
  decide

/-- C8 (amended): submitting a pass is idempotent — a second pass on the
same slot never changes the state — and passing an already-passed slot is a
strict no-op provided the slot carries the pass scores `[0, 0]` and a
nonempty noun and every later slot is answered or passed (all of which
passing it the first time guarantees). -/
theorem submitPass_idempotent (s : GameState) (roundIndex : ℕ) (g : GuessResult)
    (hg : s.guesses.get? roundIndex = some g)
    (hpass : g.isPass = some true) (hnoun : g.noun ≠ [])
    (hsc : g.scores = some (0, 0))
    (hlater : ∀ j gj, s.guesses.get? j = some gj → roundIndex < j →
      (gj.noun ≠ [] ∨ gj.isPass = some true)) :
    submitPassLocally s roundIndex = s ∧
    (∀ (t : GameState) (r : ℕ),
      submitPassLocally (submitPassLocally t r) r = submitPassLocally t r) := by
  constructor
  · show { s with guesses := mapWithIndex (passSlot roundIndex) s.guesses } = s
    rw [mapWithIndex_eq_self]
    intro i a ha
    obtain ⟨n, sc, rs, ap, ad, ip⟩ := a
    by_cases hir : i = roundIndex
    · subst hir
      rw [hg] at ha
      obtain rfl := Option.some.inj ha
      simp only [passSlot, if_pos rfl]
      cases hn : n with
      | nil =>
        subst hn
        exact absurd rfl hnoun
      | cons c cs =>
        subst hn
        cases hsc
        cases hpass
        rfl
    · simp only [passSlot, if_neg hir]
      by_cases hlt : roundIndex < i
      · rcases hlater i _ ha hlt with h | h
        · have hne : ¬ (roundIndex < i ∧ (List.isEmpty n = true) ∧ ip ≠ some true) := by
            cases n with
            | nil => exact absurd rfl h
            | cons c cs => simp
          simp only [if_neg hne]
        · have hip : ip = some true := h
          subst hip
          simp only [ne_eq, not_true_eq_false, and_false, if_false]
      · simp only [hlt, false_and, if_false]
  · intro t r
    show { t with guesses := mapWithIndex (passSlot r)
                    (mapWithIndex (passSlot r) t.guesses) } =
      { t with guesses := mapWithIndex (passSlot r) t.guesses }
    rw [mapWithIndex_comp]
    congr 1
    apply mapWithIndex_congr
    intro i a
    obtain ⟨n, sc, rs, ap, ad, ip⟩ := a
    by_cases hir : i = r
    · subst hir
      simp only [passSlot, if_pos rfl]
      cases n <;> rfl
    · simp only [passSlot, if_neg hir]
      by_cases hc : r < i ∧ (List.isEmpty n = true) ∧ ip ≠ some true
      · simp only [if_pos hc]
        simp
      · simp only [if_neg hc]

/-- Witness for the amended C8: re-passing a properly passed single slot
leaves the state unchanged. -/
theorem submitPass_idempotent_witness :
    submitPassLocally
      { mode := .daily, dateKey := [], adjectives := ([], []),
        guesses := [{ noun := strChars "PASS", scores := some (0, 0),
                      isPass := some true }],
        currentTurnIndex := 1, appealsRemaining := 1 } 0 =
      { mode := .daily, dateKey := [], adjectives := ([], []),
        guesses := [{ noun := strChars "PASS", scores := some (0, 0),
                      isPass := some true }],
        currentTurnIndex := 1, appealsRemaining := 1 } := by
  have h := submitPass_idempotent
    { mode := .daily, dateKey := [], adjectives := ([], []),
      guesses := [{ noun := strChars "PASS", scores := some (0, 0),
                    isPass := some true }],
      currentTurnIndex := 1, appealsRemaining := 1 } 0
    { noun := strChars "PASS", scores := some (0, 0), isPass := some true }
    rfl rfl (by decide) rfl
    (by
      intro j gj hgj hj
      cases j with
      | zero => omega
      | succ m => simp at hgj)
  exact h.1
